import Mathlib

/-!
# Verification of `brevets/acp_times.py`

Shallow embedding of the control-time calculator for ACP-sanctioned brevets
(`open_time`, `close_time` and their helpers `h_m_at_speed`, `carry_m_to_h`),
together with proofs of the specified properties.

Modelling choices:
* Distances are rationals (`ℚ`), modelling Python's real-valued arithmetic
  exactly on the inputs of interest.
* An arrow timestamp is modelled as minutes from an arbitrary epoch plus an
  opaque timezone tag; `Arrow.shift` models `arrow.shift(hours=…, minutes=…)`,
  which adds the offset and keeps the timezone.
* Python's `round` is round-half-to-even (`pyRound` below).
* The unreachable final branch of `open_time` constructs an all-zero sentinel
  date (`arrow.get('0000-00-00 00:00:00', …)`), an error path; it is modelled
  as `none`, every normal return as `some`.
* `close_time` calls `arrow.now()` on every nonzero control distance; the
  ambient wall clock is passed explicitly as an extra argument `now`.
-/

namespace AcpTimes

/-- A timezone-aware arrow timestamp: minutes from an arbitrary epoch together
with an opaque timezone tag. -/
structure Arrow where
  epochMinutes : ℤ
  tz : ℤ
deriving DecidableEq, Repr

/-- Model of `arrow.Arrow.shift(hours=h, minutes=m)` with integer arguments:
shift the instant, keep the timezone. -/
def Arrow.shift (t : Arrow) (hours minutes : ℤ) : Arrow :=
  ⟨t.epochMinutes + hours * 60 + minutes, t.tz⟩

/-- Python's built-in `round` on an exact value: nearest integer, ties to even. -/
def pyRound (q : ℚ) : ℤ :=
  if q - ⌊q⌋ < 1/2 then ⌊q⌋
  else if q - ⌊q⌋ > 1/2 then ⌊q⌋ + 1
  else if ⌊q⌋ % 2 = 0 then ⌊q⌋ else ⌊q⌋ + 1

/-- The `TOP_SPEEDS` dict: maximum speed for each 200 km band. -/
structure SpeedTable where
  to200 : ℤ
  to400 : ℤ
  to600 : ℤ
  to1000 : ℤ
deriving Repr

/-- `TOP_SPEEDS = {'to200': 34, 'to400': 32, 'to600': 30, 'to1000': 28}`. -/
def TOP_SPEEDS : SpeedTable := ⟨34, 32, 30, 28⟩

/-- `h_m_at_speed(dist, speed)`: `(int(dist // speed), dist % speed / speed * 60)`.
Python's `//` is floor division and `%` takes the divisor's sign, so for a
positive `speed` this is `(⌊dist/speed⌋, (dist - speed·⌊dist/speed⌋)/speed · 60)`. -/
def h_m_at_speed (dist : ℚ) (speed : ℤ) : ℤ × ℚ :=
  (⌊dist / (speed : ℚ)⌋, (dist - (speed : ℚ) * ⌊dist / (speed : ℚ)⌋) / (speed : ℚ) * 60)

/-- `carry_m_to_h(hours, minutes)`: `(hours + int(minutes // 60), minutes % 60)`. -/
def carry_m_to_h (hours : ℤ) (minutes : ℚ) : ℤ × ℚ :=
  (hours + ⌊minutes / 60⌋, minutes - 60 * ⌊minutes / 60⌋)

/-- `open_time(control_dist_km, brevet_dist_km, brevet_start_time)`, branch for
branch.  The literals 240, 480, 720, 1200 are Python's
`round(nominal + nominal * .2)` for nominal 200, 400, 600, 1000.  The final
`else` (reached only for `control_dist_km ≥ 1200`, or negative distances never,
since those fall into the `≤ 200` branch) builds the all-zero sentinel date and
is modelled as `none`. -/
def open_time (control_dist_km brevet_dist_km : ℚ) (brevet_start_time : Arrow) :
    Option Arrow :=
  if control_dist_km = 0 then
    some brevet_start_time
  else if control_dist_km ≤ 200 then
    let hm := h_m_at_speed control_dist_km TOP_SPEEDS.to200
    some (brevet_start_time.shift hm.1 (pyRound hm.2))
  else if brevet_dist_km = 200 ∧ control_dist_km ≤ 240 then
    some (brevet_start_time.shift 5 53)
  else if control_dist_km ≤ 400 then
    let first_200 := h_m_at_speed 200 TOP_SPEEDS.to200
    let second_200 := h_m_at_speed (control_dist_km - 200) TOP_SPEEDS.to400
    let total := (first_200.1 + second_200.1, first_200.2 + second_200.2)
    let total := if total.2 ≥ 60 then carry_m_to_h total.1 total.2 else total
    some (brevet_start_time.shift total.1 (pyRound total.2))
  else if brevet_dist_km = 400 ∧ control_dist_km ≤ 480 then
    some (brevet_start_time.shift 12 8)
  else if control_dist_km ≤ 600 then
    let first_200 := h_m_at_speed 200 TOP_SPEEDS.to200
    let second_200 := h_m_at_speed 200 TOP_SPEEDS.to400
    let third_200 := h_m_at_speed (control_dist_km - 400) TOP_SPEEDS.to600
    let total := (first_200.1 + second_200.1 + third_200.1,
      first_200.2 + second_200.2 + third_200.2)
    let total := if total.2 ≥ 60 then carry_m_to_h total.1 total.2 else total
    some (brevet_start_time.shift total.1 (pyRound total.2))
  else if brevet_dist_km = 600 ∧ control_dist_km ≤ 720 then
    some (brevet_start_time.shift 18 48)
  else if control_dist_km < 1200 then
    let capped := if control_dist_km > 1000 then 1000 else control_dist_km
    let first_200 := h_m_at_speed 200 TOP_SPEEDS.to200
    let second_200 := h_m_at_speed 200 TOP_SPEEDS.to400
    let third_200 := h_m_at_speed 200 TOP_SPEEDS.to600
    let final_400 := h_m_at_speed (capped - 600) TOP_SPEEDS.to1000
    let total := (first_200.1 + second_200.1 + third_200.1 + final_400.1,
      first_200.2 + second_200.2 + third_200.2 + final_400.2)
    let total := if total.2 ≥ 60 then carry_m_to_h total.1 total.2 else total
    some (brevet_start_time.shift total.1 (pyRound total.2))
  else
    none

/-- `close_time(control_dist_km, brevet_dist_km, brevet_start_time)`.  The call
`arrow.now()` is modelled by the explicit ambient wall-clock argument `now`. -/
def close_time (control_dist_km brevet_dist_km : ℚ) (brevet_start_time now : Arrow) :
    Arrow :=
  if control_dist_km = 0 then brevet_start_time.shift 1 0
  else now

/-- Modelled from the spec: the elapsed time in hours to reach a control, as a
sum over successive 200 km bands of band length divided by that band's maximum
speed, the final band using `min(control_dist_km, 1000) − 600`.  Used only to
compare the code's branch structure against the spec's band-sum description. -/
def spec_elapsed_hours (d : ℚ) : ℚ :=
  if d ≤ 200 then d / 34
  else if d ≤ 400 then 200/34 + (d - 200)/32
  else if d ≤ 600 then 200/34 + 200/32 + (d - 400)/30
  else 200/34 + 200/32 + 200/30 + (min d 1000 - 600)/28

/-! ### Arithmetic facts about the helpers -/

theorem pyRound_add_two_mul (q : ℚ) (k : ℤ) :
    pyRound (q + ((2 * k : ℤ) : ℚ)) = pyRound q + 2 * k := by
  unfold pyRound
  rw [show q + ((2 * k : ℤ) : ℚ) = q + (2 * k : ℤ) from rfl, Int.floor_add_int]
  have h1 : q + ((2 * k : ℤ) : ℚ) - ((⌊q⌋ + 2 * k : ℤ) : ℚ) = q - (⌊q⌋ : ℚ) := by
    push_cast; ring
  rw [h1, Int.add_mul_emod_self_left]
  split_ifs <;> ring

theorem pyRound_sixty_mul_add (H : ℤ) (M : ℚ) :
    pyRound ((H : ℚ) * 60 + M) = H * 60 + pyRound M := by
  have h := pyRound_add_two_mul M (30 * H)
  have hc : (H : ℚ) * 60 + M = M + ((2 * (30 * H) : ℤ) : ℚ) := by push_cast; ring
  rw [hc, h]; ring

theorem floor_le_pyRound (q : ℚ) : ⌊q⌋ ≤ pyRound q := by
  unfold pyRound; split_ifs <;> omega

theorem pyRound_le_floor_add_one (q : ℚ) : pyRound q ≤ ⌊q⌋ + 1 := by
  unfold pyRound; split_ifs <;> omega

theorem pyRound_mono {q r : ℚ} (h : q ≤ r) : pyRound q ≤ pyRound r := by
  rcases lt_or_eq_of_le (Int.floor_mono h) with hf | hf
  · calc pyRound q ≤ ⌊q⌋ + 1 := pyRound_le_floor_add_one q
      _ ≤ ⌊r⌋ := by omega
      _ ≤ pyRound r := floor_le_pyRound r
  · unfold pyRound
    rw [hf]
    split_ifs <;> first | omega | linarith

theorem hm_total (d : ℚ) (s : ℤ) (hs : (s : ℚ) ≠ 0) :
    ((h_m_at_speed d s).1 : ℚ) * 60 + (h_m_at_speed d s).2 = d / (s : ℚ) * 60 := by
  unfold h_m_at_speed
  field_simp
  ring

theorem carry_total (H : ℤ) (M : ℚ) :
    ((carry_m_to_h H M).1 : ℚ) * 60 + (carry_m_to_h H M).2 = (H : ℚ) * 60 + M := by
  unfold carry_m_to_h
  push_cast
  ring

theorem shift_carry_eq (t : Arrow) (H : ℤ) (M e : ℚ) (h : (H : ℚ) * 60 + M = e) :
    t.shift (if M ≥ 60 then carry_m_to_h H M else (H, M)).1
      (pyRound (if M ≥ 60 then carry_m_to_h H M else (H, M)).2) =
      ⟨t.epochMinutes + pyRound e, t.tz⟩ := by
  by_cases hM : M ≥ 60
  · rw [if_pos hM]
    have htot := carry_total H M
    unfold Arrow.shift
    have he : e = ((carry_m_to_h H M).1 : ℚ) * 60 + (carry_m_to_h H M).2 := by
      rw [htot, h]
    rw [he, pyRound_sixty_mul_add]
    simp only [Arrow.mk.injEq, and_true]
    ring
  · rw [if_neg hM]
    unfold Arrow.shift
    rw [← h, pyRound_sixty_mul_add]
    simp only [Arrow.mk.injEq, and_true]
    ring

theorem shift_round_eq (t : Arrow) (H : ℤ) (M e : ℚ) (h : (H : ℚ) * 60 + M = e) :
    t.shift H (pyRound M) = ⟨t.epochMinutes + pyRound e, t.tz⟩ := by
  unfold Arrow.shift
  rw [← h, pyRound_sixty_mul_add]
  simp only [Arrow.mk.injEq, and_true]
  ring

theorem TOP_SPEEDS_to200 : TOP_SPEEDS.to200 = 34 := rfl

theorem TOP_SPEEDS_to400 : TOP_SPEEDS.to400 = 32 := rfl

theorem TOP_SPEEDS_to600 : TOP_SPEEDS.to600 = 30 := rfl

theorem TOP_SPEEDS_to1000 : TOP_SPEEDS.to1000 = 28 := rfl

/-! ### Branch-by-branch characterization of `open_time` -/

theorem open_time_zero_dist (D : ℚ) (t : Arrow) : open_time 0 D t = some t := by
  unfold open_time
  rw [if_pos rfl]

theorem open_time_le200 (d D : ℚ) (t : Arrow) (h0 : ¬ d = 0) (h2 : d ≤ 200) :
    open_time d D t = some ⟨t.epochMinutes + pyRound (60 * (d / 34)), t.tz⟩ := by
  unfold open_time
  rw [if_neg h0, if_pos h2]
  show some (t.shift (h_m_at_speed d 34).1 (pyRound (h_m_at_speed d 34).2)) = _
  refine congrArg some (shift_round_eq t _ _ _ ?_)
  have hA := hm_total d 34 (by norm_num)
  linarith

theorem open_time_band2 (d D : ℚ) (t : Arrow) (h1 : 200 < d) (h2 : d ≤ 400)
    (hf : ¬(D = 200 ∧ d ≤ 240)) :
    open_time d D t =
      some ⟨t.epochMinutes + pyRound (60 * (200/34 + (d - 200)/32)), t.tz⟩ := by
  have h0 : ¬ d = 0 := by intro h; rw [h] at h1; norm_num at h1
  have hn200 : ¬ d ≤ 200 := not_le.mpr h1
  unfold open_time
  rw [if_neg h0, if_neg hn200, if_neg hf, if_pos h2]
  simp only [TOP_SPEEDS_to200, TOP_SPEEDS_to400]
  refine congrArg some (shift_carry_eq t _ _ _ ?_)
  have hA := hm_total 200 34 (by norm_num)
  have hB := hm_total (d - 200) 32 (by norm_num)
  push_cast
  linarith

theorem open_time_frozen200 (d D : ℚ) (t : Arrow) (h1 : 200 < d) (hD : D = 200)
    (h2 : d ≤ 240) : open_time d D t = some (t.shift 5 53) := by
  have h0 : ¬ d = 0 := by intro h; rw [h] at h1; norm_num at h1
  have hn200 : ¬ d ≤ 200 := not_le.mpr h1
  unfold open_time
  rw [if_neg h0, if_neg hn200, if_pos ⟨hD, h2⟩]

theorem open_time_frozen400 (d D : ℚ) (t : Arrow) (h1 : 400 < d) (hD : D = 400)
    (h2 : d ≤ 480) : open_time d D t = some (t.shift 12 8) := by
  have h0 : ¬ d = 0 := by intro h; rw [h] at h1; norm_num at h1
  have hn200 : ¬ d ≤ 200 := by intro h; linarith
  have hn400 : ¬ d ≤ 400 := not_le.mpr h1
  have hfa : ¬(D = 200 ∧ d ≤ 240) := by rintro ⟨_, hle⟩; linarith
  unfold open_time
  rw [if_neg h0, if_neg hn200, if_neg hfa, if_neg hn400, if_pos ⟨hD, h2⟩]

theorem open_time_frozen600 (d D : ℚ) (t : Arrow) (h1 : 600 < d) (hD : D = 600)
    (h2 : d ≤ 720) : open_time d D t = some (t.shift 18 48) := by
  have h0 : ¬ d = 0 := by intro h; rw [h] at h1; norm_num at h1
  have hn200 : ¬ d ≤ 200 := by intro h; linarith
  have hn400 : ¬ d ≤ 400 := by intro h; linarith
  have hn600 : ¬ d ≤ 600 := not_le.mpr h1
  have hfa : ¬(D = 200 ∧ d ≤ 240) := by rintro ⟨_, hle⟩; linarith
  have hfb : ¬(D = 400 ∧ d ≤ 480) := by rintro ⟨_, hle⟩; linarith
  unfold open_time
  rw [if_neg h0, if_neg hn200, if_neg hfa, if_neg hn400, if_neg hfb, if_neg hn600,
    if_pos ⟨hD, h2⟩]

theorem open_time_band3 (d D : ℚ) (t : Arrow) (h1 : 400 < d) (h2 : d ≤ 600)
    (hf : ¬(D = 400 ∧ d ≤ 480)) :
    open_time d D t =
      some ⟨t.epochMinutes + pyRound (60 * (200/34 + 200/32 + (d - 400)/30)), t.tz⟩ := by
  have h0 : ¬ d = 0 := by intro h; rw [h] at h1; norm_num at h1
  have hn200 : ¬ d ≤ 200 := by intro h; linarith
  have hn400 : ¬ d ≤ 400 := not_le.mpr h1
  have hfa : ¬(D = 200 ∧ d ≤ 240) := by rintro ⟨_, hle⟩; linarith
  unfold open_time
  rw [if_neg h0, if_neg hn200, if_neg hfa, if_neg hn400, if_neg hf, if_pos h2]
  simp only [TOP_SPEEDS_to200, TOP_SPEEDS_to400, TOP_SPEEDS_to600]
  refine congrArg some (shift_carry_eq t _ _ _ ?_)
  have hA := hm_total 200 34 (by norm_num)
  have hB := hm_total 200 32 (by norm_num)
  have hC := hm_total (d - 400) 30 (by norm_num)
  push_cast
  linarith

theorem open_time_band4 (d D : ℚ) (t : Arrow) (h1 : 600 < d) (h2 : d < 1200)
    (hf : ¬(D = 600 ∧ d ≤ 720)) :
    open_time d D t =
      some ⟨t.epochMinutes +
        pyRound (60 * (200/34 + 200/32 + 200/30 + (min d 1000 - 600)/28)), t.tz⟩ := by
  have h0 : ¬ d = 0 := by intro h; rw [h] at h1; norm_num at h1
  have hn200 : ¬ d ≤ 200 := by intro h; linarith
  have hn400 : ¬ d ≤ 400 := by intro h; linarith
  have hn600 : ¬ d ≤ 600 := not_le.mpr h1
  have hfa : ¬(D = 200 ∧ d ≤ 240) := by rintro ⟨_, hle⟩; linarith
  have hfb : ¬(D = 400 ∧ d ≤ 480) := by rintro ⟨_, hle⟩; linarith
  unfold open_time
  rw [if_neg h0, if_neg hn200, if_neg hfa, if_neg hn400, if_neg hfb, if_neg hn600,
    if_neg hf, if_pos h2]
  simp only [TOP_SPEEDS_to200, TOP_SPEEDS_to400, TOP_SPEEDS_to600, TOP_SPEEDS_to1000]
  have hcap : (if d > 1000 then (1000 : ℚ) else d) = min d 1000 := by
    rcases le_or_lt d 1000 with h | h
    · rw [if_neg (not_lt.mpr h), min_eq_left h]
    · rw [if_pos h, min_eq_right h.le]
  rw [hcap]
  refine congrArg some (shift_carry_eq t _ _ _ ?_)
  have hA := hm_total 200 34 (by norm_num)
  have hB := hm_total 200 32 (by norm_num)
  have hC := hm_total 200 30 (by norm_num)
  have hE := hm_total (min d 1000 - 600) 28 (by norm_num)
  push_cast
  linarith

theorem open_time_invalid (d D : ℚ) (t : Arrow) (h1 : 1200 ≤ d) :
    open_time d D t = none := by
  have h0 : ¬ d = 0 := by intro h; rw [h] at h1; norm_num at h1
  have hn200 : ¬ d ≤ 200 := by intro h; linarith
  have hn400 : ¬ d ≤ 400 := by intro h; linarith
  have hn600 : ¬ d ≤ 600 := by intro h; linarith
  have hn1200 : ¬ d < 1200 := not_lt.mpr h1
  have hfa : ¬(D = 200 ∧ d ≤ 240) := by rintro ⟨_, hle⟩; linarith
  have hfb : ¬(D = 400 ∧ d ≤ 480) := by rintro ⟨_, hle⟩; linarith
  have hfc : ¬(D = 600 ∧ d ≤ 720) := by rintro ⟨_, hle⟩; linarith
  unfold open_time
  rw [if_neg h0, if_neg hn200, if_neg hfa, if_neg hn400, if_neg hfb, if_neg hn600,
    if_neg hfc, if_neg hn1200]

/-! ### The spec's band sum: band equations, monotonicity, frozen constants -/

theorem spec_eq1 {d : ℚ} (h : d ≤ 200) : spec_elapsed_hours d = d / 34 := by
  unfold spec_elapsed_hours
  rw [if_pos h]

theorem spec_eq2 {d : ℚ} (h1 : 200 < d) (h2 : d ≤ 400) :
    spec_elapsed_hours d = 200/34 + (d - 200)/32 := by
  unfold spec_elapsed_hours
  rw [if_neg (not_le.mpr h1), if_pos h2]

theorem spec_eq3 {d : ℚ} (h1 : 400 < d) (h2 : d ≤ 600) :
    spec_elapsed_hours d = 200/34 + 200/32 + (d - 400)/30 := by
  unfold spec_elapsed_hours
  rw [if_neg (by intro h; linarith : ¬ d ≤ 200), if_neg (not_le.mpr h1), if_pos h2]

theorem spec_eq4 {d : ℚ} (h1 : 600 < d) :
    spec_elapsed_hours d = 200/34 + 200/32 + 200/30 + (min d 1000 - 600)/28 := by
  unfold spec_elapsed_hours
  rw [if_neg (by intro h; linarith : ¬ d ≤ 200), if_neg (by intro h; linarith : ¬ d ≤ 400),
    if_neg (not_le.mpr h1)]

theorem spec_elapsed_mono {d1 d2 : ℚ} (h : d1 ≤ d2) :
    spec_elapsed_hours d1 ≤ spec_elapsed_hours d2 := by
  rcases le_or_lt d1 200 with a1 | a1
  · rw [spec_eq1 a1]
    rcases le_or_lt d2 200 with b1 | b1
    · rw [spec_eq1 b1]; linarith
    · rcases le_or_lt d2 400 with b2 | b2
      · rw [spec_eq2 b1 b2]; linarith
      · rcases le_or_lt d2 600 with b3 | b3
        · rw [spec_eq3 b2 b3]; linarith
        · rw [spec_eq4 b3]
          have h600 : (600 : ℚ) ≤ min d2 1000 := le_min b3.le (by norm_num)
          linarith
  · rcases le_or_lt d1 400 with a2 | a2
    · rw [spec_eq2 a1 a2]
      rcases le_or_lt d2 400 with b2 | b2
      · rw [spec_eq2 (lt_of_lt_of_le a1 h) b2]; linarith
      · rcases le_or_lt d2 600 with b3 | b3
        · rw [spec_eq3 b2 b3]; linarith
        · rw [spec_eq4 b3]
          have h600 : (600 : ℚ) ≤ min d2 1000 := le_min b3.le (by norm_num)
          linarith
    · rcases le_or_lt d1 600 with a3 | a3
      · rw [spec_eq3 a2 a3]
        rcases le_or_lt d2 600 with b3 | b3
        · rw [spec_eq3 (lt_of_lt_of_le a2 h) b3]; linarith
        · rw [spec_eq4 b3]
          have h600 : (600 : ℚ) ≤ min d2 1000 := le_min b3.le (by norm_num)
          linarith
      · rw [spec_eq4 a3, spec_eq4 (lt_of_lt_of_le a3 h)]
        have hmin : min d1 1000 ≤ min d2 1000 := min_le_min h le_rfl
        linarith

theorem pyRound_eval_lt {q : ℚ} {n : ℤ} (h1 : (n : ℚ) ≤ q) (h2 : q - n < 1/2) :
    pyRound q = n := by
  have hfl : ⌊q⌋ = n := Int.floor_eq_iff.mpr ⟨h1, by linarith⟩
  unfold pyRound
  rw [hfl, if_pos h2]

theorem pyRound_eval_gt {q : ℚ} {n : ℤ} (h1 : (n : ℚ) ≤ q) (h2 : q - n > 1/2)
    (h3 : q < n + 1) : pyRound q = n + 1 := by
  have hfl : ⌊q⌋ = n := Int.floor_eq_iff.mpr ⟨h1, h3⟩
  unfold pyRound
  rw [hfl, if_neg (by linarith), if_pos h2]

theorem pyRound_nominal200 : pyRound (60 * spec_elapsed_hours 200) = 353 := by
  rw [spec_eq1 (by norm_num), show (60 : ℚ) * (200 / 34) = 6000/17 by norm_num]
  exact pyRound_eval_gt (n := 352) (by norm_num) (by norm_num) (by norm_num)

theorem pyRound_nominal400 : pyRound (60 * spec_elapsed_hours 400) = 728 := by
  rw [spec_eq2 (by norm_num) (by norm_num),
    show (60 : ℚ) * (200/34 + (400 - 200)/32) = 12375/17 by norm_num]
  exact pyRound_eval_gt (n := 727) (by norm_num) (by norm_num) (by norm_num)

theorem pyRound_nominal600 : pyRound (60 * spec_elapsed_hours 600) = 1128 := by
  rw [spec_eq3 (by norm_num) (by norm_num),
    show (60 : ℚ) * (200/34 + 200/32 + (600 - 400)/30) = 19175/17 by norm_num]
  exact pyRound_eval_gt (n := 1127) (by norm_num) (by norm_num) (by norm_num)

/-- The minutes `open_time` adds to the start time, as a single function of the
control distance and nominal distance: the frozen constants on the overage
windows, the rounded band sum everywhere else. -/
def openOffset (d D : ℚ) : ℤ :=
  if D = 200 ∧ 200 < d ∧ d ≤ 240 then 353
  else if D = 400 ∧ 400 < d ∧ d ≤ 480 then 728
  else if D = 600 ∧ 600 < d ∧ d ≤ 720 then 1128
  else pyRound (60 * spec_elapsed_hours d)

theorem openOffset_not_frozen {d D : ℚ} (hfa : ¬(D = 200 ∧ 200 < d ∧ d ≤ 240))
    (hfb : ¬(D = 400 ∧ 400 < d ∧ d ≤ 480)) (hfc : ¬(D = 600 ∧ 600 < d ∧ d ≤ 720)) :
    openOffset d D = pyRound (60 * spec_elapsed_hours d) := by
  unfold openOffset
  rw [if_neg hfa, if_neg hfb, if_neg hfc]

theorem pyRound_zero : pyRound 0 = 0 := pyRound_eval_lt (by norm_num) (by norm_num)

theorem shift_concrete (t : Arrow) (h m c : ℤ) (hc : h * 60 + m = c) :
    t.shift h m = ⟨t.epochMinutes + c, t.tz⟩ := by
  unfold Arrow.shift
  rw [add_assoc, hc]

theorem open_time_characterization (d D : ℚ) (t : Arrow) (h0 : 0 ≤ d)
    (h2 : d < 1200) : open_time d D t = some ⟨t.epochMinutes + openOffset d D, t.tz⟩ := by
  rcases eq_or_lt_of_le h0 with hz | hpos
  · rw [← hz, open_time_zero_dist]
    have hoff : openOffset 0 D = 0 := by
      rw [openOffset_not_frozen (by rintro ⟨_, hc, _⟩; linarith)
        (by rintro ⟨_, hc, _⟩; linarith) (by rintro ⟨_, hc, _⟩; linarith),
        spec_eq1 (by norm_num)]
      rw [show (60 : ℚ) * (0 / 34) = 0 by norm_num]
      exact pyRound_zero
    rw [hoff]
    show some t = some ⟨t.epochMinutes + 0, t.tz⟩
    rw [add_zero]
  · by_cases hfa : D = 200 ∧ 200 < d ∧ d ≤ 240
    · obtain ⟨hD, hgt, hle⟩ := hfa
      rw [open_time_frozen200 d D t hgt hD hle, shift_concrete t 5 53 353 (by norm_num)]
      unfold openOffset
      rw [if_pos ⟨hD, hgt, hle⟩]
    · by_cases hfb : D = 400 ∧ 400 < d ∧ d ≤ 480
      · obtain ⟨hD, hgt, hle⟩ := hfb
        rw [open_time_frozen400 d D t hgt hD hle, shift_concrete t 12 8 728 (by norm_num)]
        unfold openOffset
        rw [if_neg hfa, if_pos ⟨hD, hgt, hle⟩]
      · by_cases hfc : D = 600 ∧ 600 < d ∧ d ≤ 720
        · obtain ⟨hD, hgt, hle⟩ := hfc
          rw [open_time_frozen600 d D t hgt hD hle, shift_concrete t 18 48 1128 (by norm_num)]
          unfold openOffset
          rw [if_neg hfa, if_neg hfb, if_pos ⟨hD, hgt, hle⟩]
        · rw [openOffset_not_frozen hfa hfb hfc]
          rcases le_or_lt d 200 with hr1 | hr1
          · rw [open_time_le200 d D t (by positivity) hr1, spec_eq1 hr1]
          · rcases le_or_lt d 400 with hr2 | hr2
            · rw [open_time_band2 d D t hr1 hr2
                (by rintro ⟨hD, hle⟩; exact hfa ⟨hD, hr1, hle⟩), spec_eq2 hr1 hr2]
            · rcases le_or_lt d 600 with hr3 | hr3
              · rw [open_time_band3 d D t hr2 hr3
                  (by rintro ⟨hD, hle⟩; exact hfb ⟨hD, hr2, hle⟩), spec_eq3 hr2 hr3]
              · rw [open_time_band4 d D t hr3 h2
                  (by rintro ⟨hD, hle⟩; exact hfc ⟨hD, hr3, hle⟩), spec_eq4 hr3]

theorem pyRound_sixty_spec_mono {d1 d2 : ℚ} (h : d1 ≤ d2) :
    pyRound (60 * spec_elapsed_hours d1) ≤ pyRound (60 * spec_elapsed_hours d2) := by
  have hs := spec_elapsed_mono h
  exact pyRound_mono (by linarith)

theorem openOffset_mono (D : ℚ) {d1 d2 : ℚ} (h : d1 ≤ d2) :
    openOffset d1 D ≤ openOffset d2 D := by
  by_cases hfa : D = 200 ∧ 200 < d1 ∧ d1 ≤ 240
  · obtain ⟨hD, hgt, hle⟩ := hfa
    unfold openOffset
    rw [if_pos ⟨hD, hgt, hle⟩]
    by_cases hga : D = 200 ∧ 200 < d2 ∧ d2 ≤ 240
    · rw [if_pos hga]
    · have h240 : 240 < d2 := by
        by_contra hc
        push_neg at hc
        exact hga ⟨hD, by linarith, hc⟩
      rw [if_neg hga, if_neg (by rintro ⟨hc, _⟩; rw [hD] at hc; norm_num at hc),
        if_neg (by rintro ⟨hc, _⟩; rw [hD] at hc; norm_num at hc), ← pyRound_nominal200]
      exact pyRound_sixty_spec_mono (by linarith)
  · by_cases hfb : D = 400 ∧ 400 < d1 ∧ d1 ≤ 480
    · obtain ⟨hD, hgt, hle⟩ := hfb
      unfold openOffset
      rw [if_neg hfa, if_pos ⟨hD, hgt, hle⟩,
        if_neg (by rintro ⟨hc, _⟩; rw [hD] at hc; norm_num at hc)]
      by_cases hgb : D = 400 ∧ 400 < d2 ∧ d2 ≤ 480
      · rw [if_pos hgb]
      · have h480 : 480 < d2 := by
          by_contra hc
          push_neg at hc
          exact hgb ⟨hD, by linarith, hc⟩
        rw [if_neg hgb, if_neg (by rintro ⟨hc, _⟩; rw [hD] at hc; norm_num at hc),
          ← pyRound_nominal400]
        exact pyRound_sixty_spec_mono (by linarith)
    · by_cases hfc : D = 600 ∧ 600 < d1 ∧ d1 ≤ 720
      · obtain ⟨hD, hgt, hle⟩ := hfc
        unfold openOffset
        rw [if_neg hfa, if_neg hfb, if_pos ⟨hD, hgt, hle⟩,
          if_neg (by rintro ⟨hc, _⟩; rw [hD] at hc; norm_num at hc),
          if_neg (by rintro ⟨hc, _⟩; rw [hD] at hc; norm_num at hc)]
        by_cases hgc : D = 600 ∧ 600 < d2 ∧ d2 ≤ 720
        · rw [if_pos hgc]
        · have h720 : 720 < d2 := by
            by_contra hc
            push_neg at hc
            exact hgc ⟨hD, by linarith, hc⟩
          rw [if_neg hgc, ← pyRound_nominal600]
          exact pyRound_sixty_spec_mono (by linarith)
      · rw [openOffset_not_frozen hfa hfb hfc]
        by_cases hga : D = 200 ∧ 200 < d2 ∧ d2 ≤ 240
        · obtain ⟨hD, hgt, hle⟩ := hga
          have hd1 : d1 ≤ 200 := by
            by_contra hc
            push_neg at hc
            exact hfa ⟨hD, hc, by linarith⟩
          unfold openOffset
          rw [if_pos ⟨hD, hgt, hle⟩, ← pyRound_nominal200]
          exact pyRound_sixty_spec_mono hd1
        · by_cases hgb : D = 400 ∧ 400 < d2 ∧ d2 ≤ 480
          · obtain ⟨hD, hgt, hle⟩ := hgb
            have hd1 : d1 ≤ 400 := by
              by_contra hc
              push_neg at hc
              exact hfb ⟨hD, hc, by linarith⟩
            unfold openOffset
            rw [if_neg hga, if_pos ⟨hD, hgt, hle⟩, ← pyRound_nominal400]
            exact pyRound_sixty_spec_mono hd1
          · by_cases hgc : D = 600 ∧ 600 < d2 ∧ d2 ≤ 720
            · obtain ⟨hD, hgt, hle⟩ := hgc
              have hd1 : d1 ≤ 600 := by
                by_contra hc
                push_neg at hc
                exact hfc ⟨hD, hc, by linarith⟩
              unfold openOffset
              rw [if_neg hga, if_neg hgb, if_pos ⟨hD, hgt, hle⟩, ← pyRound_nominal600]
              exact pyRound_sixty_spec_mono hd1
            · rw [openOffset_not_frozen hga hgb hgc]
              exact pyRound_sixty_spec_mono h

/-! ### Claim theorems -/

/-- C1: for every start time, every brevet distance, and every control distance
`d` with `0 < d < 1200` that is not captured by a frozen-overage window,
`open_time` returns the start time shifted by the band-sum elapsed time: the
sum over successive 200 km bands of band length divided by that band's maximum
speed (34, 32, 30, 28 km/h, the final band capped at 1000 km), with fractional
minutes accumulated exactly and rounded to the nearest whole minute exactly
once at the end. -/
theorem open_time_band_sum (d D : ℚ) (t : Arrow) (h0 : 0 < d) (h1 : d < 1200)
    (hfa : ¬(D = 200 ∧ 200 < d ∧ d ≤ 240)) (hfb : ¬(D = 400 ∧ 400 < d ∧ d ≤ 480))
    (hfc : ¬(D = 600 ∧ 600 < d ∧ d ≤ 720)) :
    open_time d D t = some ⟨t.epochMinutes + pyRound (60 * spec_elapsed_hours d), t.tz⟩ := by
  rw [open_time_characterization d D t h0.le h1, openOffset_not_frozen hfa hfb hfc]

/-- Witness for C1: at control 500 of a 1000 km brevet the open time is the
start time plus 928 minutes (15 h 28 min), the rounded band sum. -/
theorem open_time_band_sum_witness :
    open_time 500 1000 ⟨0, 5⟩ = some ⟨928, 5⟩ := by
  rw [open_time_band_sum 500 1000 ⟨0, 5⟩ (by norm_num) (by norm_num) (by norm_num)
    (by norm_num) (by norm_num)]
  rw [spec_eq3 (by norm_num) (by norm_num),
    show (60 : ℚ) * (200/34 + 200/32 + (500 - 400)/30) = 15775/17 by norm_num]
  rw [pyRound_eval_gt (n := 927) (by norm_num) (by norm_num) (by norm_num)]
  norm_num

/-- C2: when the brevet distance is 200, 400 or 600 and the control distance
exceeds it by up to 20%, `open_time` is the fixed constant 5 h 53 min,
12 h 8 min, resp. 18 h 48 min past start, and that frozen value equals the open
time computed for the nominal distance itself. -/
theorem open_time_frozen_overage (d D : ℚ) (t : Arrow)
    (hD : D = 200 ∨ D = 400 ∨ D = 600) (h1 : D < d) (h2 : d ≤ 12/10 * D) :
    open_time d D t = open_time D D t ∧
    open_time d D t = some (t.shift (if D = 200 then 5 else if D = 400 then 12 else 18)
      (if D = 200 then 53 else if D = 400 then 8 else 48)) := by
  rcases hD with hD | hD | hD <;> subst hD
  · have h2a : d ≤ 240 := by linarith
    have he := open_time_frozen200 d 200 t h1 rfl h2a
    have hn := open_time_le200 200 200 t (by norm_num) le_rfl
    have c1 : pyRound (60 * ((200 : ℚ) / 34)) = 353 := by
      rw [show ((200 : ℚ) / 34) = spec_elapsed_hours 200 from (spec_eq1 (by norm_num)).symm]
      exact pyRound_nominal200
    constructor
    · rw [he, hn, c1, shift_concrete t 5 53 353 (by norm_num)]
    · rw [he]
      norm_num
  · have h2a : d ≤ 480 := by linarith
    have he := open_time_frozen400 d 400 t h1 rfl h2a
    have hn := open_time_band2 400 400 t (by norm_num) le_rfl
      (by rintro ⟨hc, _⟩; norm_num at hc)
    have c2 : pyRound (60 * ((200 : ℚ)/34 + (400 - 200)/32)) = 728 := by
      rw [show ((200 : ℚ)/34 + (400 - 200)/32) = spec_elapsed_hours 400 from
        (spec_eq2 (by norm_num) (by norm_num)).symm]
      exact pyRound_nominal400
    constructor
    · rw [he, hn, c2, shift_concrete t 12 8 728 (by norm_num)]
    · rw [he]
      norm_num
  · have h2a : d ≤ 720 := by linarith
    have he := open_time_frozen600 d 600 t h1 rfl h2a
    have hn := open_time_band3 600 600 t (by norm_num) le_rfl
      (by rintro ⟨hc, _⟩; norm_num at hc)
    have c3 : pyRound (60 * ((200 : ℚ)/34 + 200/32 + (600 - 400)/30)) = 1128 := by
      rw [show ((200 : ℚ)/34 + 200/32 + (600 - 400)/30) = spec_elapsed_hours 600 from
        (spec_eq3 (by norm_num) (by norm_num)).symm]
      exact pyRound_nominal600
    constructor
    · rw [he, hn, c3, shift_concrete t 18 48 1128 (by norm_num)]
    · rw [he]
      norm_num

/-- Witness for C2: control 230 on a 200 km brevet opens at the frozen
5 h 53 min, the value of control 200 itself. -/
theorem open_time_frozen_overage_witness :
    open_time 230 200 ⟨0, 0⟩ = open_time 200 200 ⟨0, 0⟩ ∧
    open_time 230 200 ⟨0, 0⟩ = some ((⟨0, 0⟩ : Arrow).shift
      (if (200 : ℚ) = 200 then 5 else if (200 : ℚ) = 400 then 12 else 18)
      (if (200 : ℚ) = 200 then 53 else if (200 : ℚ) = 400 then 8 else 48)) :=
  open_time_frozen_overage 230 200 ⟨0, 0⟩ (Or.inl rfl) (by norm_num) (by norm_num)

/-- C3 (refuting evaluation): a negative control distance is not rejected.
`open_time(-1, 200, start)` falls into the `≤ 200` band and returns a normal
timestamp two minutes before the start (floor hours −1, minutes 33/34·60
rounded to 58), not a distinct InvalidDistance error. -/
theorem open_time_negative_distance_not_error :
    open_time (-1) 200 ⟨0, 0⟩ = some ⟨-2, 0⟩ := by
  rw [open_time_le200 (-1) 200 ⟨0, 0⟩ (by norm_num) (by norm_num)]
  rw [show (60 : ℚ) * (-1/34) = -30/17 by norm_num,
    pyRound_eval_lt (n := -2) (by norm_num) (by norm_num)]
  norm_num

theorem open_time_1000_eval (t : Arrow) :
    open_time 1000 1000 t = some ⟨t.epochMinutes + 1985, t.tz⟩ := by
  rw [open_time_band4 1000 1000 t (by norm_num) (by norm_num)
    (by rintro ⟨hc, _⟩; norm_num at hc)]
  rw [show min (1000 : ℚ) 1000 = 1000 from min_self 1000]
  rw [show (60 : ℚ) * (200/34 + 200/32 + 200/30 + (1000 - 600)/28) = 236225/119 by norm_num]
  rw [pyRound_eval_lt (n := 1985) (by norm_num) (by norm_num)]

/-- C4 (counterexample): with the start at minute 0, `open_time(1000, 1000, start)`
is start + 1985 minutes (33 h 05 min), not the claimed 2021-02-21 13:05:00,
which is start + 1385 minutes (23 h 05 min). -/
theorem open_time_1000_claimed_value_false :
    open_time 1000 1000 ⟨0, 0⟩ ≠ some ⟨1385, 0⟩ := by
  rw [open_time_1000_eval ⟨0, 0⟩]
  simp

/-- C4 (amended): `open_time(1000, 1000, start)` is start + 33 h 05 min
(2021-02-21 23:05:00 for the 14:00 start), accumulating all four bands, and
`open_time(1005, 1000, start)` — within the 20% overage, clamped to 1000 for
the final band — equals it. -/
theorem open_time_1000_band_value (t : Arrow) :
    open_time 1000 1000 t = some ⟨t.epochMinutes + 1985, t.tz⟩ ∧
    open_time 1005 1000 t = open_time 1000 1000 t := by
  have h1005 : open_time 1005 1000 t = some ⟨t.epochMinutes + 1985, t.tz⟩ := by
    rw [open_time_band4 1005 1000 t (by norm_num) (by norm_num)
      (by rintro ⟨hc, _⟩; norm_num at hc)]
    rw [show min (1005 : ℚ) 1000 = 1000 from min_eq_right (by norm_num)]
    rw [show (60 : ℚ) * (200/34 + 200/32 + 200/30 + (1000 - 600)/28) = 236225/119 by norm_num]
    rw [pyRound_eval_lt (n := 1985) (by norm_num) (by norm_num)]
  exact ⟨open_time_1000_eval t, by rw [h1005, open_time_1000_eval t]⟩

/-- C5: for fixed brevet distance and start time, `open_time` is non-decreasing
in the control distance over `[0, 1200)`: both calls succeed and the first
result is no later, and inside a frozen-overage span the result is constant. -/
theorem open_time_monotone (D : ℚ) (t : Arrow) (d1 d2 : ℚ) (h0 : 0 ≤ d1)
    (h12 : d1 ≤ d2) (h2 : d2 < 1200) :
    (∃ r1 r2, open_time d1 D t = some r1 ∧ open_time d2 D t = some r2 ∧
      r1.epochMinutes ≤ r2.epochMinutes) ∧
    (((D = 200 ∧ 200 < d1 ∧ d2 ≤ 240) ∨ (D = 400 ∧ 400 < d1 ∧ d2 ≤ 480) ∨
        (D = 600 ∧ 600 < d1 ∧ d2 ≤ 720)) →
      open_time d1 D t = open_time d2 D t) := by
  constructor
  · refine ⟨_, _, open_time_characterization d1 D t h0 (by linarith),
      open_time_characterization d2 D t (by linarith) h2, ?_⟩
    exact add_le_add_left (openOffset_mono D h12) _
  · rintro (⟨hD, hgt, hle⟩ | ⟨hD, hgt, hle⟩ | ⟨hD, hgt, hle⟩)
    · rw [open_time_frozen200 d1 D t hgt hD (by linarith),
        open_time_frozen200 d2 D t (by linarith) hD hle]
    · rw [open_time_frozen400 d1 D t hgt hD (by linarith),
        open_time_frozen400 d2 D t (by linarith) hD hle]
    · rw [open_time_frozen600 d1 D t hgt hD (by linarith),
        open_time_frozen600 d2 D t (by linarith) hD hle]

/-- Witness for C5: controls 100 and 300 of a 200 km brevet open in order. -/
theorem open_time_monotone_witness :
    (∃ r1 r2, open_time 100 200 ⟨0, 0⟩ = some r1 ∧ open_time 300 200 ⟨0, 0⟩ = some r2 ∧
      r1.epochMinutes ≤ r2.epochMinutes) ∧
    ((((200 : ℚ) = 200 ∧ (200 : ℚ) < 100 ∧ (300 : ℚ) ≤ 240) ∨
        ((200 : ℚ) = 400 ∧ (400 : ℚ) < 100 ∧ (300 : ℚ) ≤ 480) ∨
        ((200 : ℚ) = 600 ∧ (600 : ℚ) < 100 ∧ (300 : ℚ) ≤ 720)) →
      open_time 100 200 ⟨0, 0⟩ = open_time 300 200 ⟨0, 0⟩) :=
  open_time_monotone 200 ⟨0, 0⟩ 100 300 (by norm_num) (by norm_num) (by norm_num)

/-- C6: a zero control distance opens exactly at the brevet start time, for
every brevet distance (in particular every sanctioned one) and start time. -/
theorem open_time_zero_control (D : ℚ) (t : Arrow) : open_time 0 D t = some t :=
  open_time_zero_dist D t

/-- C7: a zero control distance closes exactly one hour (60 minutes) after the
brevet start time, for every brevet distance and start time. -/
theorem close_time_zero_control (D : ℚ) (t now : Arrow) :
    close_time 0 D t now = ⟨t.epochMinutes + 60, t.tz⟩ := by
  unfold close_time
  rw [if_pos rfl, shift_concrete t 1 0 60 (by norm_num)]

/-- C8: every timestamp `open_time` returns carries the timezone of the input
start timestamp: all results are obtained by shifting the start. -/
theorem open_time_preserves_timezone (d D : ℚ) (t r : Arrow)
    (h : open_time d D t = some r) : r.tz = t.tz := by
  rcases lt_or_le d 0 with hneg | hpos
  · rw [open_time_le200 d D t (ne_of_lt hneg) (by linarith)] at h
    injection h with hh
    rw [← hh]
  · rcases lt_or_le d 1200 with hlt | hge
    · rw [open_time_characterization d D t hpos hlt] at h
      injection h with hh
      rw [← hh]
    · rw [open_time_invalid d D t hge] at h
      exact absurd h (by simp)

/-- Witness for C8: the open time of control 100 started in timezone tag 7
carries timezone tag 7. -/
theorem open_time_preserves_timezone_witness :
    (⟨176, 7⟩ : Arrow).tz = (⟨0, 7⟩ : Arrow).tz :=
  open_time_preserves_timezone 100 200 ⟨0, 7⟩ ⟨176, 7⟩ (by
    rw [open_time_le200 100 200 ⟨0, 7⟩ (by norm_num) (by norm_num)]
    rw [show (60 : ℚ) * (100/34) = 3000/17 by norm_num,
      pyRound_eval_lt (n := 176) (by norm_num) (by norm_num)]
    norm_num)

/-- C9: for any nonzero control distance, `close_time` returns the ambient wall
clock, independent of control distance, brevet distance and start time. -/
theorem close_time_nonzero_wall_clock (d1 D1 : ℚ) (t1 : Arrow) (d2 D2 : ℚ)
    (t2 now : Arrow) (h1 : d1 ≠ 0) (h2 : d2 ≠ 0) :
    close_time d1 D1 t1 now = now ∧
    close_time d1 D1 t1 now = close_time d2 D2 t2 now := by
  unfold close_time
  rw [if_neg h1, if_neg h2]
  exact ⟨rfl, rfl⟩

/-- Witness for C9: two unrelated nonzero-distance calls both return the wall
clock. -/
theorem close_time_nonzero_wall_clock_witness :
    close_time 50 200 ⟨0, 0⟩ ⟨99, 3⟩ = ⟨99, 3⟩ ∧
    close_time 50 200 ⟨0, 0⟩ ⟨99, 3⟩ = close_time 700 1000 ⟨123, 5⟩ ⟨99, 3⟩ :=
  close_time_nonzero_wall_clock 50 200 ⟨0, 0⟩ 700 1000 ⟨123, 5⟩ ⟨99, 3⟩
    (by norm_num) (by norm_num)

/-- C10: for `0 ≤ control_dist_km ≤ 200` the result of `open_time` never
depends on the brevet distance: the zero and `≤ 200` branches are selected
before `brevet_dist_km` is inspected. -/
theorem open_time_le200_brevet_independent (d D1 D2 : ℚ) (t : Arrow)
    (h0 : 0 ≤ d) (h2 : d ≤ 200) : open_time d D1 t = open_time d D2 t := by
  by_cases hz : d = 0
  · rw [hz, open_time_zero_dist, open_time_zero_dist]
  · rw [open_time_le200 d D1 t hz h2, open_time_le200 d D2 t hz h2]

/-- Witness for C10: control 150 opens at the same time on a 300 km and a
1000 km brevet. -/
theorem open_time_le200_brevet_independent_witness :
    open_time 150 300 ⟨0, 0⟩ = open_time 150 1000 ⟨0, 0⟩ :=
  open_time_le200_brevet_independent 150 300 1000 ⟨0, 0⟩ (by norm_num) (by norm_num)

end AcpTimes
